import Mathlib

/-!
Verification of the changeset-reduction core of `auto-commit.py`.

The program reduces a staged unified diff to a bounded-size text:
a four-way size classifier (`set_diff_context`), a context-window
line truncator (`get_smart_truncated_diff`), a per-file ranking and
aggregation step (`get_hybrid_diff`), a stat-summary wrapper
(`get_diff_summary`), and the dispatch in `main`.

Modelling conventions:
* a diff is a `String`; the source's `diff_content.split("\n")` is
  `pySplitLines` (a character-level split, kept kernel-computable),
  `'\n'.join(...)` is `String.intercalate "\n"`, and `.strip()` is
  `pyStrip`;
* Python's `str.startswith(p)` is a prefix test on the character
  sequence (`pyStartsWith`); a tuple argument becomes a disjunction;
* Python's `str.split(sep)` / `str.split()` / `sep in s` are modelled
  over `List Char` (`pySplitSep`, `pySplitWs`, `pyContainsSub`);
  `list[-1]` is `List.getLast?`, where `none` models the `IndexError`
  that Python would raise on an empty list;
* values that may be a `str` or `None` are `Option String`; rendering
  such a value inside an f-string is `pyFormat` (Python prints `None`);
* the truncator's source tracks the absolute index `i` and
  `last_change_idx` (initially `-999`) but only ever uses the
  difference `i - last_change_idx`; the embedding tracks that
  difference `dist` directly (initially `0 - (-999) = 999`,
  incremented per line, reset to `1` on the line after a change);
* the external collaborators (git subprocesses) are parameters: a
  subprocess call either produced stdout or raised (`SubprocessResult`).
-/

/-- Python `str.startswith(p)`: `p` is a prefix of the character sequence. -/
def pyStartsWith (line p : String) : Bool :=
  p.data.isPrefixOf line.data

/-- Split a character sequence at every occurrence of the character `c`
(Python `s.split("\n")` for `c = '\n'`); the result is never empty. -/
def splitOnChar (c : Char) : List Char → List (List Char)
  | [] => [[]]
  | d :: rest =>
    if d = c then [] :: splitOnChar c rest
    else
      match splitOnChar c rest with
      | [] => [[d]]
      | r :: rs => (d :: r) :: rs

/-- Python `diff_content.split("\n")`: the line sequence of a diff. -/
def pySplitLines (s : String) : List String :=
  (splitOnChar '\n' s.data).map String.mk

/-- Source `set_diff_context` (lines 41-55): classify the diff by the
number of `diff --git` header lines and the total line count. -/
def set_diff_context (diff_content : String) : String :=
  let lines := pySplitLines diff_content
  let total_lines := lines.length
  let file_headers := lines.filter (fun l => pyStartsWith l "diff --git")
  let files_changed := file_headers.length
  if files_changed ≤ 3 ∧ total_lines < 200 then "full diff"
  else if files_changed ≤ 10 ∧ total_lines < 1000 then "smart trunc"
  else if files_changed ≤ 20 then "hybrid"
  else "summary"

/-- The metadata / file-identity prefixes always kept by the truncator
(source line 68, the tuple passed to `startswith`). -/
def isMetadataLine (line : String) : Bool :=
  pyStartsWith line "diff --git" || pyStartsWith line "index" ||
  pyStartsWith line "---" || pyStartsWith line "+++" ||
  pyStartsWith line "new file" || pyStartsWith line "deleted file" ||
  pyStartsWith line "similarity index" || pyStartsWith line "rename"

/-- An addition or removal line (source lines 81 and 93 and 136):
starts with `+` or `-` but not with `+++` or `---`. -/
def isChangeLine (line : String) : Bool :=
  (pyStartsWith line "+" || pyStartsWith line "-") &&
  !(pyStartsWith line "+++" || pyStartsWith line "---")

/-- Source lines 92-95: scan up to `k` lines ahead (bounded by the end
of the input) for an upcoming addition/removal line. -/
def lookaheadChange : List String → Nat → Bool
  | _, 0 => false
  | [], _ => false
  | l :: ls, k + 1 => if isChangeLine l then true else lookaheadChange ls k

/-- Source `get_smart_truncated_diff` loop (lines 66-105), one step per
line.  `dist` is `i - last_change_idx` (999 initially), `last_emitted`
is `truncated[-1]` (`none` while `truncated` is empty); the context
window is the source's constant 3. -/
def truncGo : List String → Bool → Nat → Option String → List String
  | [], _, _, _ => []
  | line :: rest, in_hunk, dist, last_emitted =>
    if isMetadataLine line then
      line :: truncGo rest false (dist + 1) (some line)
    else if pyStartsWith line "@@" then
      line :: truncGo rest true (dist + 1) (some line)
    else if in_hunk then
      if isChangeLine line then
        line :: truncGo rest true 1 (some line)
      else if pyStartsWith line " " then
        if dist ≤ 3 || lookaheadChange rest 3 then
          line :: truncGo rest true (dist + 1) (some line)
        else if last_emitted ≠ none ∧ last_emitted ≠ some "..." then
          "..." :: truncGo rest true (dist + 1) (some "...")
        else
          truncGo rest true (dist + 1) last_emitted
      else
        if dist ≤ 3 then
          line :: truncGo rest true (dist + 1) (some line)
        else
          truncGo rest true (dist + 1) last_emitted
    else
      truncGo rest in_hunk (dist + 1) last_emitted

/-- The truncator on a line sequence, at its initial state. -/
def truncate_lines (lines : List String) : List String :=
  truncGo lines false 999 none

/-- The truncator's output line sequence for a diff string. -/
def get_smart_truncated_lines (diff_content : String) : List String :=
  truncate_lines (pySplitLines diff_content)

/-- Source `get_smart_truncated_diff` (lines 58-107): split, truncate,
join with newlines. -/
def get_smart_truncated_diff (diff_content : String) : String :=
  String.intercalate "\n" (get_smart_truncated_lines diff_content)

/-- Worker for `pySplitSep`, structurally recursive on a fuel bound
(each step consumes at least one character, so fuel `≥` the length of
the remaining input is never exhausted). -/
def pySplitSepGo (sep : List Char) : Nat → List Char → List (List Char)
  | _, [] => [[]]
  | 0, l => [l]
  | fuel + 1, c :: rest =>
    if sep ≠ [] ∧ sep.isPrefixOf (c :: rest) then
      [] :: pySplitSepGo sep fuel ((c :: rest).drop sep.length)
    else
      match pySplitSepGo sep fuel rest with
      | [] => [[c]]
      | r :: rs => (c :: r) :: rs

/-- Python `str.split(sep)` over the character sequence: split at each
left-to-right non-overlapping occurrence of `sep`; the result is never
empty.  (`sep` is never empty at the use sites.) -/
def pySplitSep (sep : List Char) (l : List Char) : List (List Char) :=
  pySplitSepGo sep l.length l

/-- Worker for `pySplitWs`, structurally recursive on a fuel bound. -/
def pySplitWsGo : Nat → List Char → List (List Char)
  | _, [] => []
  | 0, _ => []
  | fuel + 1, c :: rest =>
    if c.isWhitespace then pySplitWsGo fuel rest
    else
      (c :: rest.takeWhile (fun d => !d.isWhitespace)) ::
        pySplitWsGo fuel (rest.dropWhile (fun d => !d.isWhitespace))

/-- Python `str.split()` (no separator): split on whitespace runs,
discarding empty pieces; whitespace-only input gives `[]`. -/
def pySplitWs (l : List Char) : List (List Char) :=
  pySplitWsGo l.length l

/-- Python `str.strip()`: remove leading and trailing whitespace. -/
def pyStrip (l : List Char) : List Char :=
  ((l.dropWhile Char.isWhitespace).reverse.dropWhile Char.isWhitespace).reverse

/-- Python `sub in s` on character sequences. -/
def pyContainsSub (sub : List Char) : List Char → Bool
  | [] => sub.isEmpty
  | c :: rest => sub.isPrefixOf (c :: rest) || pyContainsSub sub rest

/-- Rendering a str-or-None value in an f-string: Python prints `None`. -/
def pyFormat : Option String → String
  | some s => s
  | none => "None"

/-- Python truthiness of a str-or-None value: `None` and `""` are falsy. -/
def pyTruthyStr : Option String → Bool
  | some s => !s.isEmpty
  | none => false

/-- Source line 130:
`line.split(' b/')[-1] if ' b/' in line else line.split()[-1]`;
`none` models the `IndexError` Python would raise on an empty list. -/
def extract_file_name (line : String) : Option String :=
  if pyContainsSub " b/".data line.data then
    ((pySplitSep " b/".data line.data).getLast?).map String.mk
  else
    ((pySplitWs line.data).getLast?).map String.mk

/-- The per-file accumulator dict of `get_hybrid_diff`
(source lines 123-128 and 139-145). -/
structure FileData where
  name : String
  lines : String
  change_count : Nat
deriving DecidableEq

/-- Source lines 123-128 / 140-145: append the accumulated segment if
`current_file and current_lines` is truthy. -/
def flushFiles (files : List FileData) (cf : Option String)
    (cl : List String) (lc : Nat) : List FileData :=
  if pyTruthyStr cf ∧ cl ≠ [] then
    files ++ [⟨cf.getD "", String.intercalate "\n" cl, lc⟩]
  else files

/-- The per-file scan of `get_hybrid_diff` (source lines 120-145):
state is `current_file`, `current_lines`, `line_count`, `files_data`;
`none` models the `IndexError` from name extraction propagating. -/
def hybridGo : List String → Option String → List String → Nat →
    List FileData → Option (List FileData)
  | [], cf, cl, lc, files => some (flushFiles files cf cl lc)
  | line :: rest, cf, cl, lc, files =>
    if pyStartsWith line "diff --git" then
      let files' := flushFiles files cf cl lc
      match extract_file_name line with
      | none => none
      | some nm => hybridGo rest (some nm) [line] 0 files'
    else if pyTruthyStr cf then
      hybridGo rest cf (cl ++ [line])
        (if isChangeLine line then lc + 1 else lc) files
    else
      hybridGo rest cf cl lc files

/-- The `files_data` list built by `get_hybrid_diff` for a diff. -/
def get_hybrid_files (diff_content : String) : Option (List FileData) :=
  hybridGo (pySplitLines diff_content) none [] 0 []

/-- One insertion step of a stable descending sort by `change_count`. -/
def insertByCount (x : FileData) : List FileData → List FileData
  | [] => [x]
  | y :: ys =>
    if y.change_count ≤ x.change_count then x :: y :: ys
    else y :: insertByCount x ys

/-- Source line 148,
`files_data.sort(key=lambda x: x['change_count'], reverse=True)`:
Python's `list.sort` is stable, and `reverse=True` inverts the
comparison without reordering equal elements, so this is the stable
descending insertion sort. -/
def sortByCountDesc : List FileData → List FileData
  | [] => []
  | x :: xs => insertByCount x (sortByCountDesc xs)

/-- Source `get_hybrid_diff` (lines 110-158).  `summary` is the
collaborator's `get_diff_summary()` result (`none` when both of its
subprocess calls cannot both succeed); the `none` output models the
`IndexError` from name extraction propagating (it never occurs). -/
def get_hybrid_diff (diff_content : String) (summary : Option String)
    (top_n : Nat) : Option String :=
  match get_hybrid_files diff_content with
  | none => none
  | some files_data =>
    let top_files := (sortByCountDesc files_data).take top_n
    let header := pyFormat summary ++ "\n\nKey changes (top " ++
      toString top_files.length ++ " files):\n\n"
    let body := String.join
      (top_files.map (fun fd => get_smart_truncated_diff fd.lines ++ "\n\n"))
    some (String.mk (pyStrip (header ++ body).data))

/-- A `diff --git` header line whose extracted file name is truthy:
exactly these open a segment that is later flushed into `files_data`. -/
def isGoodHeader (line : String) : Bool :=
  pyStartsWith line "diff --git" && pyTruthyStr (extract_file_name line)

/-- Count of header lines with truthy extracted names. -/
def goodHeaderCount (diff_content : String) : Nat :=
  ((pySplitLines diff_content).filter isGoodHeader).length

/-- A collaborator subprocess call: captured stdout on success, or any
raised exception (`CalledProcessError`, `FileNotFoundError`, ...). -/
inductive SubprocessResult where
  | ok (stdout : String)
  | raised
deriving DecidableEq

/-- Source `get_diff_summary` (lines 161-178): two collaborator calls
under `try`, and a bare `except: return None` that catches every
failure of either call. -/
def get_diff_summary (diff_stats name_status : SubprocessResult) :
    Option String :=
  match diff_stats, name_status with
  | .ok s, .ok n => some ("File changes:\n" ++ s ++ "\nChange types:\n" ++ n)
  | _, _ => none

/-- The names bound at module level in `auto-commit.py` by the time
`main()` is called: the imports (lines 2-8), the three module-level
assignments (lines 11-14) and the function definitions.  `API_KEY` and
`MODEL` are not among them, and they are not Python builtins either. -/
def module_globals : List String :=
  ["subprocess", "sys", "requests", "os", "load_dotenv", "anthropic",
   "tempfile", "api_key", "selected_model", "client",
   "fetch_staged_requests", "set_diff_context", "get_smart_truncated_diff",
   "get_hybrid_diff", "get_diff_summary", "gen_commit_message",
   "preview_loop", "main"]

/-- Source line 254: the recognised help flags. -/
def help_flags : List String := ["-h", "--help", "--hlep"]

/-- How far `main` gets before its first side effect on the repository. -/
inductive MainOutcome where
  | usage_exit
  | name_error (missing : String)
  | fetch_diff
deriving DecidableEq

/-- Source `main` lines 254-262: the help-flag check, then the guard
`if API_KEY == None or MODEL == None` (line 258).  Evaluating the bare
name `API_KEY` (before `MODEL`, left to right) is a lookup in `main`'s
locals (it binds none at that point), then the module globals, then the
builtins; an unresolved name raises `NameError`.  Only past the guard
would `fetch_staged_requests()` run. -/
def main_env_guard (argv : List String) : MainOutcome :=
  if argv.length > 1 ∧ argv.getD 1 "" ∈ help_flags then .usage_exit
  else if "API_KEY" ∈ module_globals then .fetch_diff
  else .name_error "API_KEY"

/-- Source `main` lines 268-280: the dispatch on `set_diff_context`,
returning the value handed to `gen_commit_message` as the prompt
f-string renders it.  The `summary` branch (lines 278-280) passes the
str-or-None result of `get_diff_summary()` straight through; `none`
models an uncaught exception (none of the branches raises one except
the never-occurring extraction error inside `get_hybrid_diff`). -/
def main_reduction (staged_diff : String) (summary : Option String) :
    Option String :=
  if set_diff_context staged_diff = "full diff" then
    some staged_diff
  else if set_diff_context staged_diff = "smart trunc" then
    some (get_smart_truncated_diff staged_diff)
  else if set_diff_context staged_diff = "hybrid" then
    get_hybrid_diff staged_diff summary 5
  else if set_diff_context staged_diff = "summary" then
    some (pyFormat summary)
  else
    none

/-- A staged diff touching 25 files (spec scenario 4). -/
def diff25 : String :=
  String.intercalate "\n" (List.replicate 25 "diff --git a/f b/f")

/-- The lines the truncator must always keep at each scan state: every
metadata line, every hunk header, and every addition/removal line
encountered while inside a hunk. -/
def mandatoryGo : List String → Bool → List String
  | [], _ => []
  | line :: rest, in_hunk =>
    if isMetadataLine line then line :: mandatoryGo rest false
    else if pyStartsWith line "@@" then line :: mandatoryGo rest true
    else if in_hunk ∧ isChangeLine line then line :: mandatoryGo rest in_hunk
    else mandatoryGo rest in_hunk

/-- A truncator output line, tagged with its origin: an original input
line kept verbatim, or the synthetic ellipsis marker standing for one
or more omitted context lines (the spec's `TruncatedLine`). -/
inductive TLine where
  | orig (s : String)
  | ellipsis
deriving DecidableEq

/-- The string a tagged output line renders to. -/
def TLine.render : TLine → String
  | .orig s => s
  | .ellipsis => "..."

/-- The truncator `truncGo` instrumented with the origin of each emitted line; its
branch structure and state updates are those of `truncGo`. -/
def truncGoT : List String → Bool → Nat → Option String → List TLine
  | [], _, _, _ => []
  | line :: rest, in_hunk, dist, last_emitted =>
    if isMetadataLine line then
      .orig line :: truncGoT rest false (dist + 1) (some line)
    else if pyStartsWith line "@@" then
      .orig line :: truncGoT rest true (dist + 1) (some line)
    else if in_hunk then
      if isChangeLine line then
        .orig line :: truncGoT rest true 1 (some line)
      else if pyStartsWith line " " then
        if dist ≤ 3 || lookaheadChange rest 3 then
          .orig line :: truncGoT rest true (dist + 1) (some line)
        else if last_emitted ≠ none ∧ last_emitted ≠ some "..." then
          .ellipsis :: truncGoT rest true (dist + 1) (some "...")
        else
          truncGoT rest true (dist + 1) last_emitted
      else
        if dist ≤ 3 then
          .orig line :: truncGoT rest true (dist + 1) (some line)
        else
          truncGoT rest true (dist + 1) last_emitted
    else
      truncGoT rest in_hunk (dist + 1) last_emitted

/-- The tagged truncator output for a diff string. -/
def get_smart_truncated_tagged (diff_content : String) : List TLine :=
  truncGoT (pySplitLines diff_content) false 999 none

/-- Every line of the list that is neither metadata nor a hunk header
occurs while inside a hunk (scanning with the truncator's state).  All
truncator outputs satisfy this. -/
def outsideOK : Bool → List String → Bool
  | _, [] => true
  | in_hunk, line :: rest =>
    if isMetadataLine line then outsideOK false rest
    else if pyStartsWith line "@@" then outsideOK true rest
    else in_hunk && outsideOK in_hunk rest

/-- Every in-hunk line of the list other than an addition/removal line
(context lines, ellipsis markers, blank or other lines) lies within the
context window of the last change, scanning with the truncator's state.
On such a list the truncator keeps everything. -/
def truncStable : List String → Bool → Nat → Bool
  | [], _, _ => true
  | line :: rest, in_hunk, dist =>
    if isMetadataLine line then truncStable rest false (dist + 1)
    else if pyStartsWith line "@@" then truncStable rest true (dist + 1)
    else if in_hunk then
      if isChangeLine line then truncStable rest true 1
      else decide (dist ≤ 3) && truncStable rest true (dist + 1)
    else truncStable rest in_hunk (dist + 1)

/-- The claim's literal side condition, formalised: every in-hunk
context line (leading-space line) of the list lies within the context
window of the last change; other lines are unconstrained. -/
def contextWindowOK : List String → Bool → Nat → Bool
  | [], _, _ => true
  | line :: rest, in_hunk, dist =>
    if isMetadataLine line then contextWindowOK rest false (dist + 1)
    else if pyStartsWith line "@@" then contextWindowOK rest true (dist + 1)
    else if in_hunk && isChangeLine line then contextWindowOK rest true 1
    else if in_hunk && pyStartsWith line " " then
      decide (dist ≤ 3) && contextWindowOK rest true (dist + 1)
    else contextWindowOK rest in_hunk (dist + 1)

/-- C1: the classifier returns `full diff` exactly when
`file_count ≤ 3 ∧ total < 200`; otherwise `smart trunc` exactly when
`file_count ≤ 10 ∧ total < 1000`; otherwise `hybrid` exactly when
`file_count ≤ 20`; otherwise `summary` — with strict `<` on line
counts and `≤` on file counts. -/
theorem set_diff_context_cases (diff_content : String) :
    (set_diff_context diff_content = "full diff" ↔
      (((pySplitLines diff_content).filter
          (fun l => pyStartsWith l "diff --git")).length ≤ 3 ∧
        (pySplitLines diff_content).length < 200)) ∧
    (set_diff_context diff_content = "smart trunc" ↔
      (¬(((pySplitLines diff_content).filter
            (fun l => pyStartsWith l "diff --git")).length ≤ 3 ∧
          (pySplitLines diff_content).length < 200) ∧
        ((pySplitLines diff_content).filter
          (fun l => pyStartsWith l "diff --git")).length ≤ 10 ∧
        (pySplitLines diff_content).length < 1000)) ∧
    (set_diff_context diff_content = "hybrid" ↔
      (¬(((pySplitLines diff_content).filter
            (fun l => pyStartsWith l "diff --git")).length ≤ 3 ∧
          (pySplitLines diff_content).length < 200) ∧
        ¬(((pySplitLines diff_content).filter
            (fun l => pyStartsWith l "diff --git")).length ≤ 10 ∧
          (pySplitLines diff_content).length < 1000) ∧
        ((pySplitLines diff_content).filter
          (fun l => pyStartsWith l "diff --git")).length ≤ 20)) ∧
    (set_diff_context diff_content = "summary" ↔
      (¬(((pySplitLines diff_content).filter
            (fun l => pyStartsWith l "diff --git")).length ≤ 3 ∧
          (pySplitLines diff_content).length < 200) ∧
        ¬(((pySplitLines diff_content).filter
            (fun l => pyStartsWith l "diff --git")).length ≤ 10 ∧
          (pySplitLines diff_content).length < 1000) ∧
        ¬((pySplitLines diff_content).filter
            (fun l => pyStartsWith l "diff --git")).length ≤ 20)) := by
  unfold set_diff_context
  dsimp only
  have hfs : ("full diff" : String) ≠ "smart trunc" := by decide
  have hfh : ("full diff" : String) ≠ "hybrid" := by decide
  have hfo : ("full diff" : String) ≠ "summary" := by decide
  have hsh : ("smart trunc" : String) ≠ "hybrid" := by decide
  have hso : ("smart trunc" : String) ≠ "summary" := by decide
  have hho : ("hybrid" : String) ≠ "summary" := by decide
  split_ifs with h1 h2 h3 <;>
    refine ⟨?_, ?_, ?_, ?_⟩ <;>
    simp_all

/-- C2 (code bug): when the stat collaborator fails, `get_hybrid_diff`
renders the Python `None` summary into its f-string, so the output
begins with the literal text `None` instead of omitting the summary
cleanly (evaluated at a one-file diff with a failed collaborator). -/
theorem get_hybrid_diff_renders_None :
    get_hybrid_diff "diff --git a/x b/x\n+1" none 5 =
      some "None\n\nKey changes (top 1 files):\n\ndiff --git a/x b/x" ∧
    pyStartsWith "None\n\nKey changes (top 1 files):\n\ndiff --git a/x b/x"
      "None" = true := by decide

/-- C3 (code bug): for a 25-file staged diff whose stat/name-status
collaborator fails, the `summary` branch of `main` raises nothing: it
hands `gen_commit_message` the `None` summary, which the prompt
f-string renders as the degenerate text `None`. -/
theorem summary_branch_passes_none :
    set_diff_context diff25 = "summary" ∧
    main_reduction diff25 none = some (pyFormat none) ∧
    pyFormat none = "None" := by decide

/-- C4: on every invocation that gets past the help-flag check, the
guard on line 258 evaluates the undefined name `API_KEY` (the module
binds `api_key` and `selected_model` instead), so `main` raises
`NameError` before fetching any staged diff, for every `argv`. -/
theorem main_guard_name_error (argv : List String)
    (h : ¬(argv.length > 1 ∧ argv.getD 1 "" ∈ help_flags)) :
    main_env_guard argv = .name_error "API_KEY" := by
  unfold main_env_guard
  rw [if_neg h, if_neg (by decide : ¬("API_KEY" ∈ module_globals))]

/-- Witness for C4 at a concrete command line without a help flag. -/
theorem main_guard_name_error_witness :
    main_env_guard ["auto-commit.py", "--preview"] =
      .name_error "API_KEY" :=
  main_guard_name_error ["auto-commit.py", "--preview"] (by decide)

/-- C10: `get_diff_summary` never raises — a failure in either of its
two collaborator calls yields the single undifferentiated value `None`,
and success yields the two outputs under the literal headers
`File changes:` and `Change types:`. -/
theorem get_diff_summary_spec (ds ns : SubprocessResult) :
    (∀ s n, ds = .ok s → ns = .ok n →
      get_diff_summary ds ns =
        some ("File changes:\n" ++ s ++ "\nChange types:\n" ++ n)) ∧
    ((ds = .raised ∨ ns = .raised) → get_diff_summary ds ns = none) := by
  cases ds <;> cases ns <;> simp [get_diff_summary]

/-- Witness for C10 at concrete collaborator outcomes. -/
theorem get_diff_summary_spec_witness :
    get_diff_summary (.ok "S") (.ok "N") =
      some ("File changes:\n" ++ "S" ++ "\nChange types:\n" ++ "N") ∧
    get_diff_summary .raised (.ok "N") = none :=
  ⟨(get_diff_summary_spec (.ok "S") (.ok "N")).1 "S" "N" rfl rfl,
   (get_diff_summary_spec .raised (.ok "N")).2 (Or.inl rfl)⟩

/-- C5 counterexample: for the input consisting of the single addition
line `+x` (no hunk header before it), the truncator's output is empty,
so that addition line is dropped, contrary to the claim as stated. -/
theorem truncator_drops_change_outside_hunk :
    isChangeLine "+x" = true ∧
    get_smart_truncated_lines "+x" = [] ∧
    get_smart_truncated_diff "+x" = "" := by decide

/-- C7 counterexample: the one-line diff `diff --git a/x b/` has one
file-header line, but its extracted name (`split(' b/')[-1]`) is the
falsy empty string, so no segment is ever flushed: the ranker yields 0
segments while the claim demands `min 5 1 = 1`. -/
theorem ranker_drops_empty_name_header :
    get_hybrid_files "diff --git a/x b/" = some [] ∧
    ((pySplitLines "diff --git a/x b/").filter
      (fun l => pyStartsWith l "diff --git")).length = 1 ∧
    ¬((0 : Nat) = min 5 1) := by decide

/-- C8 counterexample: for `"@@ h\n+a\n b\n c\n d\n e\n f"` the
truncated output is `["@@ h", "+a", " b", " c", " d", "..."]` — all of
its context lines lie within the window — yet re-truncating drops the
trailing ellipsis marker (it sits outside the window and is not a
context line), so the truncator is not idempotent as claimed. -/
theorem truncator_not_idempotent :
    contextWindowOK
      (get_smart_truncated_lines "@@ h\n+a\n b\n c\n d\n e\n f")
      false 999 = true ∧
    truncate_lines (get_smart_truncated_lines "@@ h\n+a\n b\n c\n d\n e\n f") ≠
      get_smart_truncated_lines "@@ h\n+a\n b\n c\n d\n e\n f" ∧
    get_smart_truncated_diff
        (get_smart_truncated_diff "@@ h\n+a\n b\n c\n d\n e\n f") ≠
      get_smart_truncated_diff "@@ h\n+a\n b\n c\n d\n e\n f" := by decide

/-- At every scan state, the mandatory lines form a sublist of the
truncator's output. -/
lemma mandatoryGo_sublist_truncGo (lines : List String) :
    ∀ (in_hunk : Bool) (dist : Nat) (le : Option String),
      List.Sublist (mandatoryGo lines in_hunk) (truncGo lines in_hunk dist le) := by
  induction lines with
  | nil => intro in_hunk dist le; simp [mandatoryGo, truncGo]
  | cons line rest IH =>
    intro in_hunk dist le
    simp only [mandatoryGo, truncGo]
    split_ifs <;>
      first
      | exact List.Sublist.cons₂ _ (IH _ _ _)
      | exact List.Sublist.cons _ (IH _ _ _)
      | exact IH _ _ _
      | simp_all

/-- C5 (amended): the truncator never drops a hunk header or a
file-header/metadata line, nor an addition/removal line that occurs
inside a hunk: those lines appear unchanged and in their original
relative order in the output.  (An addition/removal line occurring
outside any hunk is dropped — see the counterexample.) -/
theorem truncator_keeps_mandatory_lines (diff_content : String) :
    List.Sublist (mandatoryGo (pySplitLines diff_content) false)
      (get_smart_truncated_lines diff_content) :=
  mandatoryGo_sublist_truncGo (pySplitLines diff_content) false 999 none

/-- The tagged truncator renders to the real truncator output. -/
lemma truncGoT_render (lines : List String) :
    ∀ (in_hunk : Bool) (dist : Nat) (le : Option String),
      (truncGoT lines in_hunk dist le).map TLine.render =
        truncGo lines in_hunk dist le := by
  induction lines with
  | nil => intro in_hunk dist le; simp [truncGoT, truncGo]
  | cons line rest IH =>
    intro in_hunk dist le
    simp only [truncGoT, truncGo]
    split_ifs <;> simp [TLine.render, IH]

/-- At every scan state: no two adjacent synthetic ellipsis markers in
the tagged output; moreover if the last emitted line was already an
ellipsis string, the next emitted line is not a synthetic ellipsis. -/
lemma truncGoT_chain (lines : List String) :
    ∀ (in_hunk : Bool) (dist : Nat) (le : Option String),
      List.Chain' (fun a b => ¬(a = TLine.ellipsis ∧ b = TLine.ellipsis))
        (truncGoT lines in_hunk dist le) ∧
      (le = some "..." →
        (truncGoT lines in_hunk dist le).head? ≠ some TLine.ellipsis) := by
  induction lines with
  | nil => intro in_hunk dist le; simp [truncGoT]
  | cons line rest IH =>
    intro in_hunk dist le
    simp only [truncGoT]
    split_ifs with h1 h2 h3 h4 h5 h6 h7 h8
    · exact ⟨List.chain'_cons'.mpr ⟨fun b _ => by simp, (IH _ _ _).1⟩,
        fun hle => by simp⟩
    · exact ⟨List.chain'_cons'.mpr ⟨fun b _ => by simp, (IH _ _ _).1⟩,
        fun hle => by simp⟩
    · exact ⟨List.chain'_cons'.mpr ⟨fun b _ => by simp, (IH _ _ _).1⟩,
        fun hle => by simp⟩
    · exact ⟨List.chain'_cons'.mpr ⟨fun b _ => by simp, (IH _ _ _).1⟩,
        fun hle => by simp⟩
    · have hhead := (IH true (dist + 1) (some "...")).2 rfl
      refine ⟨List.chain'_cons'.mpr ⟨?_, (IH _ _ _).1⟩,
        fun hle => absurd hle h7.2⟩
      intro b hb hcon
      rw [Option.mem_def] at hb
      rw [hcon.2] at hb
      exact hhead hb
    · exact IH _ _ _
    · exact ⟨List.chain'_cons'.mpr ⟨fun b _ => by simp, (IH _ _ _).1⟩,
        fun hle => by simp⟩
    · exact IH _ _ _
    · exact IH _ _ _

/-- C6: the truncator output never contains two consecutive ellipsis
markers: in the origin-tagged emission sequence (which renders exactly
to the truncator's output) no synthetic ellipsis marker is adjacent to
another one, because a marker is appended only if the previously
emitted line is not already an ellipsis. -/
theorem truncator_no_adjacent_ellipsis (diff_content : String) :
    List.Chain' (fun a b => ¬(a = TLine.ellipsis ∧ b = TLine.ellipsis))
      (get_smart_truncated_tagged diff_content) ∧
    (get_smart_truncated_tagged diff_content).map TLine.render =
      get_smart_truncated_lines diff_content :=
  ⟨(truncGoT_chain _ false 999 none).1, truncGoT_render _ false 999 none⟩

/-- One-step unfolding of `outsideOK` on a nonempty list. -/
lemma outsideOK_cons (in_hunk : Bool) (line : String) (rest : List String) :
    outsideOK in_hunk (line :: rest) =
      (if isMetadataLine line then outsideOK false rest
       else if pyStartsWith line "@@" then outsideOK true rest
       else in_hunk && outsideOK in_hunk rest) := rfl

/-- One-step unfolding of `truncStable` on a nonempty list. -/
lemma truncStable_cons (line : String) (rest : List String)
    (in_hunk : Bool) (dist : Nat) :
    truncStable (line :: rest) in_hunk dist =
      (if isMetadataLine line then truncStable rest false (dist + 1)
       else if pyStartsWith line "@@" then truncStable rest true (dist + 1)
       else if in_hunk then
         if isChangeLine line then truncStable rest true 1
         else decide (dist ≤ 3) && truncStable rest true (dist + 1)
       else truncStable rest in_hunk (dist + 1)) := rfl

/-- Lines are only emitted outside a hunk if they are metadata or hunk
headers: every truncator output satisfies `outsideOK` at the state the
emission started in (the state-driving metadata/hunk-header lines are
all kept, so the output re-parses with the same states). -/
lemma outsideOK_truncGo (lines : List String) :
    ∀ (in_hunk : Bool) (dist : Nat) (le : Option String),
      outsideOK in_hunk (truncGo lines in_hunk dist le) = true := by
  induction lines with
  | nil => intro in_hunk dist le; simp [truncGo, outsideOK]
  | cons line rest IH =>
    intro in_hunk dist le
    simp only [truncGo]
    split_ifs with h1 h2 h3 h4 h5 h6 h7 h8
    · rw [outsideOK_cons, if_pos h1]; exact IH false _ _
    · rw [outsideOK_cons, if_neg h1, if_pos h2]; exact IH true _ _
    · rw [outsideOK_cons, if_neg h1, if_neg h2, h3, Bool.true_and]
      exact IH true _ _
    · rw [outsideOK_cons, if_neg h1, if_neg h2, h3, Bool.true_and]
      exact IH true _ _
    · rw [outsideOK_cons,
        if_neg (by decide : ¬(isMetadataLine "..." = true)),
        if_neg (by decide : ¬(pyStartsWith "..." "@@" = true)),
        h3, Bool.true_and]
      exact IH true _ _
    · rw [h3]; exact IH true _ _
    · rw [outsideOK_cons, if_neg h1, if_neg h2, h3, Bool.true_and]
      exact IH true _ _
    · rw [h3]; exact IH true _ _
    · exact IH in_hunk _ _

/-- On a list that is `truncStable` and `outsideOK` at the given state,
the truncator keeps every line: nothing is dropped or replaced. -/
lemma truncGo_eq_self_of_stable (lines : List String) :
    ∀ (in_hunk : Bool) (dist : Nat) (le : Option String),
      truncStable lines in_hunk dist = true →
      outsideOK in_hunk lines = true →
      truncGo lines in_hunk dist le = lines := by
  induction lines with
  | nil => intro in_hunk dist le _ _; simp [truncGo]
  | cons line rest IH =>
    intro in_hunk dist le hs ho
    rw [truncStable_cons] at hs
    rw [outsideOK_cons] at ho
    simp only [truncGo]
    split_ifs with h1 h2 h3 h4 h5 h6 h7 h8
    · rw [if_pos h1] at hs
      rw [if_pos h1] at ho
      rw [IH false (dist + 1) (some line) hs ho]
    · rw [if_neg h1, if_pos h2] at hs
      rw [if_neg h1, if_pos h2] at ho
      rw [IH true (dist + 1) (some line) hs ho]
    · rw [if_neg h1, if_neg h2, if_pos h3, if_pos h4] at hs
      rw [if_neg h1, if_neg h2, h3, Bool.true_and] at ho
      rw [IH true 1 (some line) hs ho]
    · rw [if_neg h1, if_neg h2, if_pos h3, if_neg h4] at hs
      rw [Bool.and_eq_true, decide_eq_true_eq] at hs
      rw [if_neg h1, if_neg h2, h3, Bool.true_and] at ho
      rw [IH true (dist + 1) (some line) hs.2 ho]
    · exfalso
      rw [if_neg h1, if_neg h2, if_pos h3, if_neg h4] at hs
      rw [Bool.and_eq_true, decide_eq_true_eq] at hs
      exact h6 (by rw [Bool.or_eq_true]; exact Or.inl (decide_eq_true hs.1))
    · exfalso
      rw [if_neg h1, if_neg h2, if_pos h3, if_neg h4] at hs
      rw [Bool.and_eq_true, decide_eq_true_eq] at hs
      exact h6 (by rw [Bool.or_eq_true]; exact Or.inl (decide_eq_true hs.1))
    · rw [if_neg h1, if_neg h2, if_pos h3, if_neg h4] at hs
      rw [Bool.and_eq_true, decide_eq_true_eq] at hs
      rw [if_neg h1, if_neg h2, h3, Bool.true_and] at ho
      rw [IH true (dist + 1) (some line) hs.2 ho]
    · exfalso
      rw [if_neg h1, if_neg h2, if_pos h3, if_neg h4] at hs
      rw [Bool.and_eq_true, decide_eq_true_eq] at hs
      exact h8 hs.1
    · exfalso
      rw [if_neg h1, if_neg h2] at ho
      rw [Bool.and_eq_true] at ho
      exact h3 ho.1

/-- C8 (amended): the truncator is idempotent on its own output
whenever that output has every in-hunk line other than an
addition/removal line — context lines, ellipsis markers, blank or
other lines — within the context window of the last change:
re-truncating such output returns it unchanged.  (The claim's condition
on context lines alone does not suffice: an ellipsis marker outside the
window is dropped on re-truncation — see the counterexample.) -/
theorem truncator_idempotent_of_stable (diff_content : String)
    (h : truncStable (get_smart_truncated_lines diff_content) false 999 = true) :
    truncate_lines (get_smart_truncated_lines diff_content) =
      get_smart_truncated_lines diff_content :=
  truncGo_eq_self_of_stable _ false 999 none h
    (outsideOK_truncGo (pySplitLines diff_content) false 999 none)

/-- Witness for C8 at a concrete diff whose truncated output is stable. -/
theorem truncator_idempotent_of_stable_witness :
    truncStable (get_smart_truncated_lines "@@ h\n+a\n b") false 999 = true ∧
    truncate_lines (get_smart_truncated_lines "@@ h\n+a\n b") =
      get_smart_truncated_lines "@@ h\n+a\n b" :=
  ⟨by decide, truncator_idempotent_of_stable "@@ h\n+a\n b" (by decide)⟩

/-- The worker `pySplitSepGo` never returns the empty list. -/
lemma pySplitSepGo_ne_nil (sep : List Char) :
    ∀ (fuel : Nat) (l : List Char), pySplitSepGo sep fuel l ≠ [] := by
  intro fuel
  induction fuel with
  | zero => intro l; cases l <;> simp [pySplitSepGo]
  | succ n IH =>
    intro l
    cases l with
    | nil => simp [pySplitSepGo]
    | cons c rest =>
      simp only [pySplitSepGo]
      split_ifs
      · simp
      · rcases hm : pySplitSepGo sep n rest with _ | ⟨r, rs⟩ <;> simp [hm]

/-- Python `split(sep)` never returns the empty list. -/
lemma pySplitSep_ne_nil (sep l : List Char) : pySplitSep sep l ≠ [] :=
  pySplitSepGo_ne_nil sep l.length l

/-- Python `split()` of a sequence starting with a non-whitespace
character is nonempty. -/
lemma pySplitWs_ne_nil_of_head (c : Char) (l : List Char)
    (hc : c.isWhitespace = false) : pySplitWs (c :: l) ≠ [] := by
  simp only [pySplitWs, List.length_cons, pySplitWsGo, hc]
  simp

/-- Name extraction never raises on a `diff --git` header line: both
`split` results are nonempty, so `[-1]` succeeds. -/
lemma extract_file_name_isSome (line : String)
    (h : pyStartsWith line "diff --git" = true) :
    (extract_file_name line).isSome = true := by
  unfold extract_file_name
  split_ifs with hc
  · obtain ⟨a, ha⟩ := Option.isSome_iff_exists.mp
      (List.getLast?_isSome.mpr (pySplitSep_ne_nil " b/".data line.data))
    rw [ha]; rfl
  · have hp : ("diff --git".data).isPrefixOf line.data = true := h
    obtain ⟨t, ht⟩ := List.isPrefixOf_iff_prefix.mp hp
    have hd : line.data = 'd' :: ("iff --git".data ++ t) := by
      rw [← ht]; rfl
    have hne : pySplitWs line.data ≠ [] := by
      rw [hd]
      exact pySplitWs_ne_nil_of_head 'd' _ (by decide)
    obtain ⟨a, ha⟩ := Option.isSome_iff_exists.mp
      (List.getLast?_isSome.mpr hne)
    rw [ha]; rfl

/-- One-step unfolding of `hybridGo` on a nonempty list. -/
lemma hybridGo_cons (line : String) (rest : List String)
    (cf : Option String) (cl : List String) (lc : Nat)
    (files : List FileData) :
    hybridGo (line :: rest) cf cl lc files =
      (if pyStartsWith line "diff --git" then
        match extract_file_name line with
        | none => none
        | some nm => hybridGo rest (some nm) [line] 0 (flushFiles files cf cl lc)
      else if pyTruthyStr cf then
        hybridGo rest cf (cl ++ [line])
          (if isChangeLine line then lc + 1 else lc) files
      else hybridGo rest cf cl lc files) := rfl

/-- Flushing appends at most one segment: its length is the old
length plus one exactly when the pending accumulator is flushed. -/
lemma flushFiles_length (files : List FileData) (cf : Option String)
    (cl : List String) (lc : Nat) :
    (flushFiles files cf cl lc).length =
      files.length + (if pyTruthyStr cf ∧ cl ≠ [] then 1 else 0) := by
  unfold flushFiles
  split_ifs <;> simp

/-- The per-file scan always succeeds, and produces one segment per
good header line in the remaining input, plus the pending segment. -/
lemma hybridGo_spec (lines : List String) :
    ∀ (cf : Option String) (cl : List String) (lc : Nat)
      (files : List FileData),
      (pyTruthyStr cf = true → cl ≠ []) →
      ∃ fd, hybridGo lines cf cl lc files = some fd ∧
        fd.length = files.length +
          (if pyTruthyStr cf ∧ cl ≠ [] then 1 else 0) +
          (lines.filter isGoodHeader).length := by
  induction lines with
  | nil =>
    intro cf cl lc files hinv
    exact ⟨flushFiles files cf cl lc, rfl, by
      simp [flushFiles_length]⟩
  | cons line rest IH =>
    intro cf cl lc files hinv
    by_cases hh : pyStartsWith line "diff --git" = true
    · obtain ⟨nm, hnm⟩ := Option.isSome_iff_exists.mp
        (extract_file_name_isSome line hh)
      obtain ⟨fd, hfd, hlen⟩ := IH (some nm) [line] 0
        (flushFiles files cf cl lc) (fun _ => by simp)
      refine ⟨fd, ?_, ?_⟩
      · rw [hybridGo_cons, if_pos hh, hnm]
        exact hfd
      · have hgood : isGoodHeader line = (pyTruthyStr (some nm)) := by
          unfold isGoodHeader
          rw [hh, hnm, Bool.true_and]
        rw [hlen, flushFiles_length, List.filter_cons, hgood]
        by_cases ht : pyTruthyStr (some nm) = true
        · simp only [ht, if_pos, List.length_cons]
          simp
          omega
        · simp only [Bool.not_eq_true] at ht
          simp [ht]
    · have hng : isGoodHeader line = false := by
        unfold isGoodHeader
        rw [Bool.not_eq_true] at hh
        rw [hh, Bool.false_and]
      by_cases hcf : pyTruthyStr cf = true
      · obtain ⟨fd, hfd, hlen⟩ := IH cf (cl ++ [line])
          (if isChangeLine line then lc + 1 else lc) files
          (fun _ => by simp)
        refine ⟨fd, ?_, ?_⟩
        · rw [hybridGo_cons, if_neg (by simp [hh]), if_pos hcf]
          exact hfd
        · rw [hlen, List.filter_cons, hng]
          have hcl : cl ≠ [] := hinv hcf
          simp [hcf, hcl]
      · obtain ⟨fd, hfd, hlen⟩ := IH cf cl lc files
          (fun h => absurd h hcf)
        refine ⟨fd, ?_, ?_⟩
        · rw [hybridGo_cons, if_neg (by simp [hh]), if_neg (by simp [hcf])]
          exact hfd
        · rw [hlen, List.filter_cons, hng]
          simp [hcf]

/-- C9: the core reduction steps are total on every input string: the
classifier always returns one of its four tags, the per-file scan and
the hybrid aggregator never raise (their only fallible operation, the
`[-1]` indexing in file-name extraction, always succeeds), and a
malformed diff — a hunk header with no following lines — degrades to a
valid smaller output instead of raising. -/
theorem core_steps_total (diff_content : String) (summary : Option String)
    (top_n : Nat) :
    (set_diff_context diff_content = "full diff" ∨
     set_diff_context diff_content = "smart trunc" ∨
     set_diff_context diff_content = "hybrid" ∨
     set_diff_context diff_content = "summary") ∧
    (get_hybrid_files diff_content).isSome = true ∧
    (get_hybrid_diff diff_content summary top_n).isSome = true ∧
    get_smart_truncated_lines "@@ -1,3 +1,3 @@" = ["@@ -1,3 +1,3 @@"] := by
  obtain ⟨fd, hfd, -⟩ := hybridGo_spec (pySplitLines diff_content)
    none [] 0 [] (fun h => absurd h (by decide))
  have hfiles : get_hybrid_files diff_content = some fd := hfd
  refine ⟨?_, ?_, ?_, by decide⟩
  · unfold set_diff_context
    dsimp only
    split_ifs <;> simp
  · rw [hfiles]; rfl
  · unfold get_hybrid_diff
    rw [hfiles]
    rfl

/-- Membership in an insertion step. -/
lemma mem_insertByCount (b x : FileData) (l : List FileData) :
    b ∈ insertByCount x l ↔ b = x ∨ b ∈ l := by
  induction l with
  | nil => simp [insertByCount]
  | cons y ys IH =>
    simp only [insertByCount]
    split_ifs <;> first | (simp [IH]; tauto) | simp [IH]

/-- Inserting preserves length. -/
lemma insertByCount_length (x : FileData) (l : List FileData) :
    (insertByCount x l).length = l.length + 1 := by
  induction l with
  | nil => rfl
  | cons y ys IH =>
    simp only [insertByCount]
    split_ifs <;> simp [IH]

/-- The stable sort preserves length. -/
lemma sortByCountDesc_length (l : List FileData) :
    (sortByCountDesc l).length = l.length := by
  induction l with
  | nil => rfl
  | cons x xs IH => simp [sortByCountDesc, insertByCount_length, IH]

/-- Inserting into a non-increasing list keeps it non-increasing. -/
lemma insertByCount_pairwise (x : FileData) (l : List FileData)
    (h : l.Pairwise (fun a b => b.change_count ≤ a.change_count)) :
    (insertByCount x l).Pairwise
      (fun a b => b.change_count ≤ a.change_count) := by
  induction l with
  | nil => simp [insertByCount]
  | cons y ys IH =>
    rw [List.pairwise_cons] at h
    simp only [insertByCount]
    split_ifs with hle
    · refine List.Pairwise.cons ?_ (List.pairwise_cons.mpr h)
      intro b hb
      rcases List.mem_cons.mp hb with rfl | hmem
      · exact hle
      · exact le_trans (h.1 b hmem) hle
    · refine List.Pairwise.cons ?_ (IH h.2)
      intro b hb
      rcases (mem_insertByCount b x ys).mp hb with rfl | hmem
      · exact le_of_lt (Nat.lt_of_not_le hle)
      · exact h.1 b hmem

/-- The sort's output is non-increasing in `change_count`. -/
lemma sortByCountDesc_pairwise (l : List FileData) :
    (sortByCountDesc l).Pairwise
      (fun a b => b.change_count ≤ a.change_count) := by
  induction l with
  | nil => simp [sortByCountDesc]
  | cons x xs IH => exact insertByCount_pairwise x _ IH

/-- Stability of one insertion, phrased per key value: the elements
with any fixed `change_count` keep their relative order. -/
lemma insertByCount_filter_count (x : FileData) (l : List FileData)
    (c : Nat) :
    (insertByCount x l).filter (fun s => s.change_count = c) =
      (x :: l).filter (fun s => s.change_count = c) := by
  induction l with
  | nil => rfl
  | cons y ys IH =>
    simp only [insertByCount]
    split_ifs with hle
    · rfl
    · have hlt : x.change_count < y.change_count := Nat.lt_of_not_le hle
      by_cases hx : x.change_count = c <;> by_cases hy : y.change_count = c
      · exfalso; omega
      · simp only [List.filter_cons, hx, hy, IH]
        simp
      · simp only [List.filter_cons, hx, hy, IH]
        simp [hx, hy]
      · simp only [List.filter_cons, hx, hy, IH]
        simp [hx, hy]

/-- Stability of the sort, phrased per key value. -/
lemma sortByCountDesc_filter_count (l : List FileData) (c : Nat) :
    (sortByCountDesc l).filter (fun s => s.change_count = c) =
      l.filter (fun s => s.change_count = c) := by
  induction l with
  | nil => rfl
  | cons x xs IH =>
    rw [sortByCountDesc, insertByCount_filter_count, List.filter_cons,
      List.filter_cons, IH]

/-- C7 (amended): for every diff and `top_n`, the ranker produces
exactly `min top_n g` segments, where `g` counts the file-header lines
whose extracted name is non-empty (a header such as `diff --git a/x b/`
yields the falsy empty name and opens no segment — see the
counterexample); the segments are ordered by `change_count`
non-increasing, and ties preserve the original file-encounter order:
for each count value, the output's segments with that count form a
prefix of the encounter-ordered segments with that count. -/
theorem ranker_ranked_output (diff_content : String) (top_n : Nat)
    (fd : List FileData) (h : get_hybrid_files diff_content = some fd) :
    ((sortByCountDesc fd).take top_n).length =
      min top_n (goodHeaderCount diff_content) ∧
    ((sortByCountDesc fd).take top_n).Pairwise
      (fun a b => b.change_count ≤ a.change_count) ∧
    ∀ c, ((sortByCountDesc fd).take top_n).filter
        (fun s => s.change_count = c) <+:
      fd.filter (fun s => s.change_count = c) := by
  obtain ⟨fd', hfd', hlen⟩ := hybridGo_spec (pySplitLines diff_content)
    none [] 0 [] (fun hx => absurd hx (by decide))
  have hfd : fd = fd' := by
    have : some fd = some fd' := h.symm.trans hfd'
    exact Option.some.injEq _ _ ▸ this
  refine ⟨?_, ?_, ?_⟩
  · rw [List.length_take, sortByCountDesc_length]
    have : fd.length = goodHeaderCount diff_content := by
      rw [hfd, hlen]
      simp [goodHeaderCount]
    rw [this]
  · exact List.Pairwise.sublist (List.take_sublist top_n _)
      (sortByCountDesc_pairwise fd)
  · intro c
    have htp := List.take_prefix top_n (sortByCountDesc fd)
    have hpre : ((sortByCountDesc fd).take top_n).filter
        (fun s => s.change_count = c) <+:
        (sortByCountDesc fd).filter (fun s => s.change_count = c) :=
      htp.filter _
    rw [sortByCountDesc_filter_count] at hpre
    exact hpre

/-- Witness for C7 at a concrete one-file diff. -/
theorem ranker_ranked_output_witness :
    get_hybrid_files "diff --git a/x b/y\n+1" =
      some [⟨"y", "diff --git a/x b/y\n+1", 1⟩] ∧
    (((sortByCountDesc [⟨"y", "diff --git a/x b/y\n+1", 1⟩]).take 5).length =
      min 5 (goodHeaderCount "diff --git a/x b/y\n+1") ∧
    ((sortByCountDesc [⟨"y", "diff --git a/x b/y\n+1", 1⟩]).take 5).Pairwise
      (fun a b => b.change_count ≤ a.change_count) ∧
    ∀ c, ((sortByCountDesc [⟨"y", "diff --git a/x b/y\n+1", 1⟩]).take 5).filter
        (fun s => s.change_count = c) <+:
      [(⟨"y", "diff --git a/x b/y\n+1", 1⟩ : FileData)].filter
        (fun s => s.change_count = c)) :=
  ⟨by decide, ranker_ranked_output "diff --git a/x b/y\n+1" 5 _ (by decide)⟩
